import Mathlib

/-!
# Verification of the crash-game round engine

A shallow embedding of the crash-game backend (provably-fair crash point
generation in `src/utils/provablyFair.js`, the round engine `GameService`
in `src/services/game.service.js`, the wallet balance method in
`src/models/wallet.model.js`, and the game configuration in
`src/config/config.js`), together with theorems about the engine's claimed
properties.

Modelling conventions:
* JavaScript numbers are modelled as exact rationals (`ℚ`).  Every numeric
  value manipulated by the code paths treated here (crash points, balances,
  multipliers) is produced by arithmetic that is exact in `ℚ`; binary
  floating-point rounding is abstracted away.
* SHA-256 (`crypto.createHash('sha256')`) lives outside the repository, so
  the hash is a parameter `sha : String → String`; the round-trip and range
  properties hold for any such function.
* `async`/`await` sequencing is straight-line; thrown errors are modelled
  with `Except`.  In `placeBet` and `cashOut` every `throw` happens before
  the first state mutation, so an `Except.error` result leaves the caller's
  state untouched, exactly as in the source.
* Timers and socket emissions (`setInterval`, `io.emit`) are not state; a
  firing of the multiplier interval is the explicit `tick` operation taking
  the current absolute time (`Date.now()`) as an argument.
* Database persistence is dropped: the Mongo-connected and demo modes keep
  the same in-memory state, which is what the claims are about.  Transaction
  records and timestamps (externally generated ids / clock reads) are
  omitted from the records.
-/

namespace CryptoCrash

/-! ## Configuration (`src/config/config.js`, `config.game`) -/

namespace Config

/-- `config.game.maxCrashValue` (default, no env override): 100. -/
def maxCrashValue : Nat := 100

/-- `config.game.growthFactor = 0.00005`. -/
def growthFactor : ℚ := 5 / 100000

/-- `config.game.initialMultiplier = 1.0`. -/
def initialMultiplier : ℚ := 1

end Config

/-! ## JS `parseInt(s, 16)` on hash fragments

`calculateCrashPoint` runs `parseInt(hash.slice(0, 8), 16)`.  We model the
relevant fragment of `parseInt`'s semantics: consume the maximal leading run
of hexadecimal digits; if the first character is not a hex digit the result
is `NaN`, modelled as `none`.  (Leading whitespace, sign and `0x` prefixes
never occur in a hex digest and are not modelled.) -/

/-- Value of one hexadecimal digit character, by code point:
`'0'..'9'` are 48..57, `'a'..'f'` are 97..102, `'A'..'F'` are 65..70. -/
def hexDigitVal (c : Char) : Option Nat :=
  if 48 ≤ c.toNat ∧ c.toNat ≤ 57 then some (c.toNat - 48)
  else if 97 ≤ c.toNat ∧ c.toNat ≤ 102 then some (c.toNat - 97 + 10)
  else if 65 ≤ c.toNat ∧ c.toNat ≤ 70 then some (c.toNat - 65 + 10)
  else none

/-- Accumulate the value of the maximal leading run of hex digits. -/
def parseHexCore : List Char → Nat → Nat
  | [], acc => acc
  | c :: cs, acc =>
    match hexDigitVal c with
    | some v => parseHexCore cs (16 * acc + v)
    | none => acc

/-- `parseInt(s, 16)`: `none` is JavaScript's `NaN` (no leading hex digit). -/
def parseInt16 (l : List Char) : Option Nat :=
  match l with
  | [] => none
  | c :: _ =>
    match hexDigitVal c with
    | none => none
    | some _ => some (parseHexCore l 0)

/-- Floor of a rational, computed by floor-dividing the numerator by the
denominator (kernel-executable; equal to `Int.floor`, see
`ratFloor_eq_floor`). -/
def ratFloor (q : ℚ) : ℤ := q.num.fdiv q.den

/-- `parseFloat(x.toFixed(2))`: round to the nearest multiple of 1/100
(ties away from zero for the non-negative values arising here).  On the
integer-valued crash points produced by the generator this is the
identity. -/
def round2 (q : ℚ) : ℚ := (ratFloor (q * 100 + 1 / 2) : ℚ) / 100

/-! ## Fairness generator (`src/utils/provablyFair.js` and
`GameService.generateCrashPoint`) -/

/-- `provablyFair.generateHash(seed, roundNumber)`:
SHA-256 of `` `${seed}:${roundNumber}` ``. -/
def generateHash (sha : String → String) (seed : String) (roundNumber : Nat) : String :=
  sha (seed ++ ":" ++ toString roundNumber)

/-- `provablyFair.calculateCrashPoint(hash, maxCrashValue)`:
`parseInt(hash.slice(0,8), 16)`, then `1.0 + (decimal % maxCrashValue)`
rounded via `toFixed(2)`/`parseFloat`.  `none` models the `NaN` results
(unparseable fragment, or `% 0` when `maxCrashValue = 0`). -/
def calculateCrashPoint (hash : String) (maxCrashValue : Nat) : Option ℚ :=
  let hashFragment := hash.data.take 8
  match parseInt16 hashFragment with
  | none => none
  | some decimal =>
    if maxCrashValue = 0 then none
    else some (round2 (1 + ((decimal % maxCrashValue : Nat) : ℚ)))

/-- `GameService.generateCrashPoint(roundNumber)` (same arithmetic is inlined
in the service): given the externally drawn random `seed`, returns
`(crashPoint, seed, hash)`. -/
def generateCrashPoint (sha : String → String) (seed : String)
    (roundNumber maxCrashValue : Nat) : Option ℚ × String × String :=
  let hash := generateHash sha seed roundNumber
  (calculateCrashPoint hash maxCrashValue, seed, hash)

/-- `provablyFair.verifyCrashPoint(seed, roundNumber, hash, crashPoint,
maxCrashValue)`: recompute the hash, compare; recompute the crash point,
compare (`===`; a `NaN` recomputed crash point compares unequal). -/
def verifyCrashPoint (sha : String → String) (seed : String) (roundNumber : Nat)
    (hash : String) (crashPoint : ℚ) (maxCrashValue : Nat) : Bool :=
  let calculatedHash := generateHash sha seed roundNumber
  if calculatedHash = hash then
    match calculateCrashPoint hash maxCrashValue with
    | some c => decide (c = crashPoint)
    | none => false
  else false

/-! ## Currencies and wallets (`src/models/wallet.model.js`) -/

inductive Currency
  | BTC
  | ETH
deriving DecidableEq

/-- `config.cryptoApi.supportedCurrencies = ['BTC', 'ETH']`. -/
def supportedCurrencies : List Currency := [Currency.BTC, Currency.ETH]

/-- The `balances` subdocument of a wallet. -/
structure Wallet where
  btc : ℚ
  eth : ℚ
deriving DecidableEq

/-- `this.balances[currency]`. -/
def Wallet.get (w : Wallet) (c : Currency) : ℚ :=
  match c with
  | Currency.BTC => w.btc
  | Currency.ETH => w.eth

/-- `this.balances[currency] = v`. -/
def Wallet.set (w : Wallet) (c : Currency) (v : ℚ) : Wallet :=
  match c with
  | Currency.BTC => { w with btc := v }
  | Currency.ETH => { w with eth := v }

/-! ## Errors thrown by the engine (one constructor per thrown message) -/

inductive GameError
  | invalidBetParameters
  | unsupportedCurrency (c : Currency)
  | bettingClosed
  | alreadyActiveBet
  | walletNotFound
  | insufficientBalance (c : Currency)
  | invalidUserId
  | noActiveRound
  | cashoutNotAllowed
  | noActiveBet
  | alreadyCashedOut
deriving DecidableEq

/-- `walletSchema.methods.updateBalance(currency, amount)`:
`!this.balances[currency] && amount < 0` throws `Insufficient ... balance`
(a zero balance is falsy); `this.balances[currency] + amount < 0` throws the
same; otherwise `this.balances[currency] += amount`. -/
def updateBalance (w : Wallet) (c : Currency) (amount : ℚ) : Except GameError Wallet :=
  if w.get c = 0 ∧ amount < 0 then Except.error (GameError.insufficientBalance c)
  else if w.get c + amount < 0 then Except.error (GameError.insufficientBalance c)
  else Except.ok (w.set c (w.get c + amount))

/-! ## Round records and engine state (`src/services/game.service.js`) -/

inductive Phase
  | waiting
  | betting
  | running
  | ended
  | paused
  | stopped
deriving DecidableEq

inductive RoundStatus
  | active
  | completed
deriving DecidableEq

/-- The bet details stored in `activeBets` and pushed onto
`currentRound.bets` (the transaction id, an externally generated database
id, is omitted). -/
structure BetDetails where
  userId : String
  usdAmount : ℚ
  cryptoAmount : ℚ
  currency : Currency
deriving DecidableEq

/-- A cashout record pushed onto `currentRound.cashouts` (timestamp and
transaction id omitted). -/
structure CashoutDetails where
  userId : String
  usdAmount : ℚ
  cryptoAmount : ℚ
  currency : Currency
  multiplier : ℚ
deriving DecidableEq

/-- The `GameRound` record (`src/models/gameRound.model.js`) as kept in
`this.currentRound` (start/end timestamps omitted). -/
structure GameRound where
  roundNumber : Nat
  crashPoint : ℚ
  seed : String
  hash : String
  status : RoundStatus
  bets : List BetDetails
  cashouts : List CashoutDetails
deriving DecidableEq

/-- Association-list read, first match wins (models the `Map`/`Wallet.findOne`
lookups). -/
def lookupKey {β : Type} (m : List (String × β)) (k : String) : Option β :=
  match m with
  | [] => none
  | (k', v) :: rest => if k' = k then some v else lookupKey rest k

/-- Association-list write (models `Map.set` and the wallet document save). -/
def insertKey {β : Type} (m : List (String × β)) (k : String) (v : β) :
    List (String × β) :=
  match m with
  | [] => [(k, v)]
  | (k', v') :: rest =>
    if k' = k then (k, v) :: rest else (k', v') :: insertKey rest k v

/-- The mutable fields of the `GameService` instance that the claims concern,
plus the external wallet store.  `startTime` is the instant captured by the
most recent `startMultiplierUpdates` call; absolute times (`Date.now()`) are
passed to the operations explicitly. -/
structure GameState where
  roundPhase : Phase
  isGameRunning : Bool
  currentMultiplier : ℚ
  roundNumber : Nat
  activeBets : List (String × BetDetails)
  cashedOut : List String
  currentRound : Option GameRound
  startTime : ℚ
  wallets : List (String × Wallet)
deriving DecidableEq

/-! ## Engine operations -/

/-- `GameService.startBettingPhase()`: enter the betting phase and clear the
per-round ledger (`activeBets.clear()`, `cashedOut.clear()`).  The betting
countdown and emissions are timers, not state; the countdown ends by calling
`startRound`. -/
def startBettingPhase (st : GameState) : GameState :=
  { st with roundPhase := Phase.betting, activeBets := [], cashedOut := [] }

/-- `GameService.crashGame()`: stop the multiplier updates, leave `running`,
mark the round completed. -/
def crashGame (st : GameState) : GameState :=
  { st with
    isGameRunning := false
    roundPhase := Phase.ended
    currentRound := st.currentRound.map fun r => { r with status := RoundStatus.completed } }

/-- `GameService.startRound()`: increment the round number, raise
`isGameRunning`, reset the multiplier to `initialMultiplier`, enter `running`,
generate the crash point / seed / hash, create the round record (`bets: []`,
`cashouts: []`), and start the multiplier updates, capturing the start
instant `now`.  The random seed (`crypto.randomBytes`) is an external input.
`none` models the unreachable case of an unparseable hash fragment. -/
def startRound (st : GameState) (sha : String → String) (seed : String) (now : ℚ) :
    Option GameState :=
  let roundNumber := st.roundNumber + 1
  match generateCrashPoint sha seed roundNumber Config.maxCrashValue with
  | (none, _, _) => none
  | (some crashPoint, seed', hash) =>
    some { st with
      roundNumber := roundNumber
      isGameRunning := true
      currentMultiplier := Config.initialMultiplier
      roundPhase := Phase.running
      currentRound := some
        { roundNumber := roundNumber
          crashPoint := crashPoint
          seed := seed'
          hash := hash
          status := RoundStatus.active
          bets := []
          cashouts := [] }
      startTime := now }

/-- One firing of the `startMultiplierUpdates` interval callback at absolute
time `now`: `currentMultiplier = initialMultiplier + timeElapsed * growthFactor`
with `timeElapsed = now - startTime`; when the multiplier reaches the round's
crash point (the value the interval closure captured), `crashGame()` runs.
With no current round the broadcast would fault after the multiplier
assignment and no crash check happens. -/
def tick (st : GameState) (now : ℚ) : GameState :=
  let timeElapsed := now - st.startTime
  let m := Config.initialMultiplier + timeElapsed * Config.growthFactor
  let st' := { st with currentMultiplier := m }
  match st.currentRound with
  | none => st'
  | some r => if r.crashPoint ≤ m then crashGame st' else st'

/-- `GameService.pauseGame()`: only from `running` with the game running;
clears the tick timer (freezing the multiplier value) and enters `paused`. -/
def pauseGame (st : GameState) : GameState :=
  if st.roundPhase = Phase.running ∧ st.isGameRunning = true then
    { st with isGameRunning := false, roundPhase := Phase.paused }
  else st

/-- `GameService.resumeGame()` at absolute time `now`: only from `paused`
with the game not running; re-enters `running` and calls
`startMultiplierUpdates(this.currentRound.crashPoint)`, which captures a
fresh start instant — the elapsed-time base restarts at `now`. -/
def resumeGame (st : GameState) (now : ℚ) : GameState :=
  if st.roundPhase = Phase.paused ∧ st.isGameRunning = false then
    let st' := { st with isGameRunning := true, roundPhase := Phase.running }
    match st.currentRound with
    | some r => if r.crashPoint ≠ 0 then { st' with startTime := now } else st'
    | none => st'
  else st

/-- `GameService.stopGame()`: cancel all timers, enter `stopped`. -/
def stopGame (st : GameState) : GameState :=
  { st with isGameRunning := false, roundPhase := Phase.stopped }

/-- `GameService.placeBet(userId, usdAmount, currency)` on the
database-connected path.  `cryptoAmount` is the result of the external
USD→crypto conversion (`cryptoService.usdToCrypto`).  Every throw happens
before the first mutation, so an error leaves the state unchanged; on
success the wallet is debited, the bet is stored in `activeBets`, and (if a
current round object exists) appended to its `bets`. -/
def placeBet (st : GameState) (userId : String) (usdAmount : ℚ) (currency : Currency)
    (cryptoAmount : ℚ) : Except GameError GameState :=
  if userId = "" ∨ usdAmount ≤ 0 then Except.error GameError.invalidBetParameters
  else if currency ∉ supportedCurrencies then
    Except.error (GameError.unsupportedCurrency currency)
  else if st.roundPhase ≠ Phase.betting then Except.error GameError.bettingClosed
  else if (lookupKey st.activeBets userId).isSome then
    Except.error GameError.alreadyActiveBet
  else
    match lookupKey st.wallets userId with
    | none => Except.error GameError.walletNotFound
    | some wallet =>
      if wallet.get currency < cryptoAmount then
        Except.error (GameError.insufficientBalance currency)
      else
        match updateBalance wallet currency (-cryptoAmount) with
        | Except.error e => Except.error e
        | Except.ok wallet' =>
          let bet : BetDetails :=
            { userId := userId, usdAmount := usdAmount
              cryptoAmount := cryptoAmount, currency := currency }
          Except.ok { st with
            wallets := insertKey st.wallets userId wallet'
            activeBets := insertKey st.activeBets userId bet
            currentRound := st.currentRound.map fun r =>
              { r with bets := r.bets ++ [bet] } }

/-- `GameService.cashOut(userId)` on the database-connected path.  Every
throw happens before the first mutation.  On success the payout
`bet.cryptoAmount * currentMultiplier` is credited, the user is added to
`cashedOut`, and the cashout record is appended to the current round. -/
def cashOut (st : GameState) (userId : String) :
    Except GameError (GameState × CashoutDetails) :=
  if userId = "" then Except.error GameError.invalidUserId
  else if st.isGameRunning = false then Except.error GameError.noActiveRound
  else if st.roundPhase ≠ Phase.running then Except.error GameError.cashoutNotAllowed
  else
    match lookupKey st.activeBets userId with
    | none => Except.error GameError.noActiveBet
    | some bet =>
      if userId ∈ st.cashedOut then Except.error GameError.alreadyCashedOut
      else
        let multiplier := st.currentMultiplier
        let cryptoPayout := bet.cryptoAmount * multiplier
        let usdPayout := bet.usdAmount * multiplier
        match lookupKey st.wallets userId with
        | none => Except.error GameError.walletNotFound
        | some wallet =>
          match updateBalance wallet bet.currency cryptoPayout with
          | Except.error e => Except.error e
          | Except.ok wallet' =>
            let cashout : CashoutDetails :=
              { userId := userId, usdAmount := usdPayout
                cryptoAmount := cryptoPayout, currency := bet.currency
                multiplier := multiplier }
            Except.ok
              ({ st with
                  wallets := insertKey st.wallets userId wallet'
                  cashedOut := st.cashedOut ++ [userId]
                  currentRound := st.currentRound.map fun r =>
                    { r with cashouts := r.cashouts ++ [cashout] } },
                cashout)

/-! ## A concrete execution, used for witnesses and counterexamples

A constant hash function standing in for SHA-256 on this run: the digest
fragment `"0000000a"` parses to 10, so with `maxCrashValue = 100` the crash
point of round 1 is `11`.  Two users `"u"` and `"v"` hold 10 BTC each; both
bet 2 BTC (10 USD) during betting; the round starts at time 0; one tick at
20000 ms puts the multiplier at `1 + 20000 * 0.00005 = 2`. -/

def demoSha : String → String := fun _ => "0000000a"

def demoBase : GameState :=
  { roundPhase := Phase.waiting
    isGameRunning := false
    currentMultiplier := 1
    roundNumber := 0
    activeBets := []
    cashedOut := []
    currentRound := none
    startTime := 0
    wallets := [("u", { btc := 10, eth := 0 }), ("v", { btc := 10, eth := 0 })] }

/-- `startBettingPhase demoBase`. -/
def demoBetting : GameState :=
  { demoBase with roundPhase := Phase.betting }

def demoBetU : BetDetails :=
  { userId := "u", usdAmount := 10, cryptoAmount := 2, currency := Currency.BTC }

def demoBetV : BetDetails :=
  { userId := "v", usdAmount := 10, cryptoAmount := 2, currency := Currency.BTC }

/-- State after `placeBet demoBetting "u" 10 BTC 2`. -/
def demoBet1 : GameState :=
  { demoBetting with
    wallets := [("u", { btc := 8, eth := 0 }), ("v", { btc := 10, eth := 0 })]
    activeBets := [("u", demoBetU)] }

/-- State after the second user's bet. -/
def demoBet2 : GameState :=
  { demoBet1 with
    wallets := [("u", { btc := 8, eth := 0 }), ("v", { btc := 8, eth := 0 })]
    activeBets := [("u", demoBetU), ("v", demoBetV)] }

/-- The round record created by `startRound demoBet2 demoSha "seed" 0`. -/
def demoRound1 : GameRound :=
  { roundNumber := 1
    crashPoint := 11
    seed := "seed"
    hash := "0000000a"
    status := RoundStatus.active
    bets := []
    cashouts := [] }

/-- State after `startRound demoBet2 demoSha "seed" 0`. -/
def demoRunning0 : GameState :=
  { demoBet2 with
    roundNumber := 1
    isGameRunning := true
    currentMultiplier := 1
    roundPhase := Phase.running
    currentRound := some demoRound1
    startTime := 0 }

/-- State after `tick demoRunning0 20000` (multiplier 2, below crash point 11). -/
def demoRunning : GameState :=
  { demoRunning0 with currentMultiplier := 2 }

def demoCoU : CashoutDetails :=
  { userId := "u", usdAmount := 20, cryptoAmount := 4
    currency := Currency.BTC, multiplier := 2 }

def demoCoV : CashoutDetails :=
  { userId := "v", usdAmount := 20, cryptoAmount := 4
    currency := Currency.BTC, multiplier := 2 }

/-- State after `cashOut demoRunning "u"`. -/
def demoCash1 : GameState :=
  { demoRunning with
    wallets := [("u", { btc := 12, eth := 0 }), ("v", { btc := 8, eth := 0 })]
    cashedOut := ["u"]
    currentRound := some { demoRound1 with cashouts := [demoCoU] } }

/-- State after the second user's cashout. -/
def demoCash2 : GameState :=
  { demoCash1 with
    wallets := [("u", { btc := 12, eth := 0 }), ("v", { btc := 12, eth := 0 })]
    cashedOut := ["u", "v"]
    currentRound := some { demoRound1 with cashouts := [demoCoU, demoCoV] } }

/-- State after `pauseGame demoRunning` (multiplier frozen at 2, elapsed
20000 ms). -/
def demoPaused : GameState :=
  { demoRunning with isGameRunning := false, roundPhase := Phase.paused }

/-- State after `resumeGame demoPaused 30000`: the start instant is re-captured
at 30000, the frozen 20000 ms of elapsed time are gone. -/
def demoResumed : GameState :=
  { demoPaused with
    isGameRunning := true
    roundPhase := Phase.running
    startTime := 30000 }

/-! # Theorems -/

/-! ### Lemmas about the generator -/

theorem hexDigitVal_lt_16 {c : Char} {v : Nat} (h : hexDigitVal c = some v) :
    v < 16 := by
  unfold hexDigitVal at h
  split at h
  · simp only [Option.some.injEq] at h
    omega
  · split at h
    · simp only [Option.some.injEq] at h
      omega
    · split at h
      · simp only [Option.some.injEq] at h
        omega
      · exact absurd h (by simp)

theorem parseHexCore_lt (l : List Char) (acc : Nat) :
    parseHexCore l acc < 16 ^ l.length * (acc + 1) := by
  induction l generalizing acc with
  | nil =>
    simp [parseHexCore]
  | cons c cs ih =>
    unfold parseHexCore
    cases hv : hexDigitVal c with
    | none =>
      simp only [List.length_cons, pow_succ]
      have h1 : 1 ≤ 16 ^ cs.length := Nat.one_le_pow _ _ (by norm_num)
      calc acc < acc + 1 := Nat.lt_succ_self acc
        _ ≤ 16 ^ cs.length * 16 * (acc + 1) := by nlinarith
    | some v =>
      have hlt := hexDigitVal_lt_16 hv
      have := ih (16 * acc + v)
      calc parseHexCore cs (16 * acc + v)
          < 16 ^ cs.length * (16 * acc + v + 1) := ih (16 * acc + v)
        _ ≤ 16 ^ cs.length * (16 * (acc + 1)) := by
            apply Nat.mul_le_mul_left
            omega
        _ = 16 ^ (c :: cs).length * (acc + 1) := by
            simp only [List.length_cons, pow_succ]
            ring

theorem parseInt16_lt {l : List Char} {d : Nat} (h : parseInt16 l = some d) :
    d < 16 ^ l.length := by
  unfold parseInt16 at h
  match l, h with
  | c :: cs, h =>
    cases hv : hexDigitVal c with
    | none => simp [hv] at h
    | some v =>
      simp only [hv, Option.some.injEq] at h
      subst h
      have := parseHexCore_lt (c :: cs) 0
      simpa using this

theorem ratFloor_eq_floor (q : ℚ) : ratFloor q = Int.floor q := by
  unfold ratFloor
  rw [Int.fdiv_eq_ediv _ (by positivity)]
  exact Rat.floor_def.symm

/-- `toFixed(2)`/`parseFloat` is the identity on natural numbers. -/
theorem round2_natCast (n : Nat) : round2 (n : ℚ) = n := by
  unfold round2
  rw [ratFloor_eq_floor]
  have hfloor : Int.floor ((n : ℚ) * 100 + 1 / 2) = (100 * n : ℤ) := by
    rw [Int.floor_eq_iff]
    constructor
    · push_cast
      nlinarith
    · push_cast
      nlinarith
  rw [hfloor]
  push_cast
  ring

theorem round2_one_add_mod (d mcv : Nat) :
    round2 (1 + ((d % mcv : Nat) : ℚ)) = ((1 + d % mcv : Nat) : ℚ) := by
  have h : (1 : ℚ) + ((d % mcv : Nat) : ℚ) = ((1 + d % mcv : Nat) : ℚ) := by
    push_cast
    ring
  rw [h, round2_natCast]

theorem calculateCrashPoint_eq {hash : String} {mcv d : Nat}
    (hmcv : mcv ≠ 0) (hd : parseInt16 (hash.data.take 8) = some d) :
    calculateCrashPoint hash mcv = some (((1 + d % mcv : Nat) : ℚ)) := by
  unfold calculateCrashPoint
  simp only [hd, hmcv, if_false]
  rw [round2_one_add_mod]

/-! ## Claim theorems on the fairness generator -/

/-- C1.  Fairness proof round-trip: for every hash function, seed, round
number and `maxCrashValue`, feeding the hash and crash point produced by
`generateCrashPoint` back into `verifyCrashPoint` (with the same seed, round
number and `maxCrashValue`) yields `true`.  The hypothesis states that the
generator did produce a crash point, which holds whenever `sha` returns a
hex digest and `maxCrashValue ≠ 0` (always the case for real SHA-256 and the
configured default 100). -/
theorem C1_verify_generate_roundtrip (sha : String → String) (seed : String)
    (roundNumber maxCrashValue : Nat) (cp : ℚ)
    (hcp : (generateCrashPoint sha seed roundNumber maxCrashValue).1 = some cp) :
    verifyCrashPoint sha seed roundNumber
      (generateCrashPoint sha seed roundNumber maxCrashValue).2.2 cp maxCrashValue = true := by
  unfold generateCrashPoint at hcp ⊢
  simp only at hcp ⊢
  unfold verifyCrashPoint
  simp only [if_pos rfl, hcp]
  simp

/-- C1 witness: a concrete instance (constant hash function `"0000000a"`,
seed `"s"`, round 1, `maxCrashValue = 100`; the generated crash point is
`11`). -/
theorem C1_verify_generate_roundtrip_witness :
    (generateCrashPoint (fun _ => "0000000a") "s" 1 100).1 = some 11 ∧
    verifyCrashPoint (fun _ => "0000000a") "s" 1
      (generateCrashPoint (fun _ => "0000000a") "s" 1 100).2.2 11 100 = true := by
  have h : (generateCrashPoint (fun _ => "0000000a") "s" 1 100).1 = some 11 := by
    show calculateCrashPoint (generateHash (fun _ => "0000000a") "s" 1) 100 = some 11
    rw [@calculateCrashPoint_eq (generateHash (fun _ => "0000000a") "s" 1) 100 10
      (by decide) (by decide)]
    norm_num
  exact ⟨h, C1_verify_generate_roundtrip (fun _ => "0000000a") "s" 1 100 11 h⟩

/-- C4.  For every hash whose first 8 characters parse as a hex number `d`
(as they do for every SHA-256 digest, with `d < 2 ^ 32`) and every
`maxCrashValue ≥ 1`, the crash point is exactly
`round2 (1.00 + (d mod maxCrashValue))`, lies in the half-open interval
`[1.00, 1.00 + maxCrashValue)`, and has exactly two decimal digits
(multiplying by 100 gives an integer). -/
theorem C4_crashPoint_range (hash : String) (maxCrashValue d : Nat)
    (hmcv : 1 ≤ maxCrashValue)
    (hd : parseInt16 (hash.data.take 8) = some d) :
    d < 2 ^ 32 ∧
    calculateCrashPoint hash maxCrashValue
      = some (round2 (1 + ((d % maxCrashValue : Nat) : ℚ))) ∧
    ∀ cp : ℚ, calculateCrashPoint hash maxCrashValue = some cp →
      1 ≤ cp ∧ cp < 1 + maxCrashValue ∧ (cp * 100).den = 1 := by
  have hmcv0 : maxCrashValue ≠ 0 := by omega
  have hcp := calculateCrashPoint_eq hmcv0 hd
  refine ⟨?_, ?_, ?_⟩
  · have hlen : (hash.data.take 8).length ≤ 8 := by
      simp [List.length_take]
    have := parseInt16_lt hd
    calc d < 16 ^ (hash.data.take 8).length := this
      _ ≤ 16 ^ 8 := Nat.pow_le_pow_right (by norm_num) hlen
      _ = 2 ^ 32 := by norm_num
  · rw [hcp, round2_one_add_mod]
  · intro cp hcp'
    rw [hcp] at hcp'
    have hcpEq : cp = ((1 + d % maxCrashValue : Nat) : ℚ) := by
      simpa using hcp'.symm
    subst hcpEq
    have hmod : d % maxCrashValue < maxCrashValue := Nat.mod_lt d (by omega)
    refine ⟨?_, ?_, ?_⟩
    · exact_mod_cast Nat.le_add_right 1 (d % maxCrashValue)
    · push_cast
      have : (↑(d % maxCrashValue) : ℚ) < maxCrashValue := by exact_mod_cast hmod
      linarith
    · have : ((1 + d % maxCrashValue : Nat) : ℚ) * 100
          = (((1 + d % maxCrashValue) * 100 : Nat) : ℚ) := by
        push_cast
        ring
      rw [this, Rat.den_natCast]

/-- C4 witness: hash `"0000000a..."` with `maxCrashValue = 100` gives `d = 10`
and crash point `11`. -/
theorem C4_crashPoint_range_witness :
    (10 : Nat) < 2 ^ 32 ∧
    calculateCrashPoint "0000000a" 100 = some (round2 (1 + ((10 % 100 : Nat) : ℚ))) ∧
    ∀ cp : ℚ, calculateCrashPoint "0000000a" 100 = some cp →
      1 ≤ cp ∧ cp < 1 + (100 : Nat) ∧ (cp * 100).den = 1 :=
  C4_crashPoint_range "0000000a" 100 10 (by decide) (by decide)

/-- C10 (implicit).  Every generated crash point is integer-valued: it equals
a natural number `n` with `1 ≤ n ≤ maxCrashValue` (so, formatted with two
decimals, only `1.00, 2.00, …, maxCrashValue.00` are possible and a round can
only crash at a whole-number multiplier). -/
theorem C10_crashPoint_integer (hash : String) (maxCrashValue d : Nat)
    (hmcv : 1 ≤ maxCrashValue)
    (hd : parseInt16 (hash.data.take 8) = some d) :
    ∃ n : Nat, 1 ≤ n ∧ n ≤ maxCrashValue ∧
      calculateCrashPoint hash maxCrashValue = some ((n : ℚ)) ∧ ((n : ℚ)).den = 1 := by
  have hmcv0 : maxCrashValue ≠ 0 := by omega
  refine ⟨1 + d % maxCrashValue, Nat.le_add_right 1 _, ?_, ?_, ?_⟩
  · have : d % maxCrashValue < maxCrashValue := Nat.mod_lt d (by omega)
    omega
  · exact calculateCrashPoint_eq hmcv0 hd
  · exact Rat.den_natCast _

/-- C10 witness: hash `"0000000a"`, `maxCrashValue = 100`: the crash point is
the whole number `11`. -/
theorem C10_crashPoint_integer_witness :
    ∃ n : Nat, 1 ≤ n ∧ n ≤ 100 ∧
      calculateCrashPoint "0000000a" 100 = some ((n : ℚ)) ∧ ((n : ℚ)).den = 1 :=
  C10_crashPoint_integer "0000000a" 100 10 (by decide) (by decide)

/-! ### Association-list lemmas -/

theorem lookupKey_insertKey_self {β : Type} (m : List (String × β)) (k : String) (v : β) :
    lookupKey (insertKey m k v) k = some v := by
  induction m with
  | nil => simp [insertKey, lookupKey]
  | cons p rest ih =>
    obtain ⟨k', v'⟩ := p
    by_cases hk : k' = k
    · simp [insertKey, lookupKey, hk]
    · simp [insertKey, lookupKey, hk, ih]

/-- Every `Currency` is in `config.cryptoApi.supportedCurrencies`. -/
theorem mem_supportedCurrencies (c : Currency) : c ∈ supportedCurrencies := by
  cases c <;> simp [supportedCurrencies]

/-! ### Inversion lemmas for the engine operations -/

theorem updateBalance_ok {w : Wallet} {c : Currency} {amount : ℚ} {w' : Wallet}
    (h : updateBalance w c amount = Except.ok w') :
    w' = w.set c (w.get c + amount) := by
  unfold updateBalance at h
  split at h
  · cases h
  · split at h
    · cases h
    · cases h
      rfl

/-- What must have held, and what the new state is, when `placeBet`
succeeds. -/
theorem placeBet_ok {st : GameState} {u : String} {usd amt : ℚ} {c : Currency}
    {st' : GameState} (h : placeBet st u usd c amt = Except.ok st') :
    u ≠ "" ∧ ¬ usd ≤ 0 ∧ st.roundPhase = Phase.betting ∧
    lookupKey st.activeBets u = none ∧
    ∃ w, lookupKey st.wallets u = some w ∧ ¬ w.get c < amt ∧
      st' = { st with
        wallets := insertKey st.wallets u (w.set c (w.get c + -amt))
        activeBets := insertKey st.activeBets u
          { userId := u, usdAmount := usd, cryptoAmount := amt, currency := c }
        currentRound := st.currentRound.map fun r =>
          { r with bets := r.bets ++
            [{ userId := u, usdAmount := usd, cryptoAmount := amt, currency := c }] } } := by
  unfold placeBet at h
  split at h
  · cases h
  · split at h
    · cases h
    · split at h
      · cases h
      · split at h
        · cases h
        · rename_i hval hc hph hdup
          push_neg at hval
          rw [not_ne_iff] at hph
          rw [Option.isSome_iff_exists] at hdup
          push_neg at hdup
          split at h
          · cases h
          · rename_i w hw
            split at h
            · cases h
            · rename_i hins
              split at h
              · cases h
              · rename_i w' hub
                cases h
                refine ⟨hval.1, not_le.2 hval.2, hph, ?_, w, hw, hins, ?_⟩
                · cases hx : lookupKey st.activeBets u with
                  | none => rfl
                  | some b => exact absurd hx (hdup b)
                · rw [updateBalance_ok hub]

/-- What must have held, and what the new state and the cashout record are,
when `cashOut` succeeds. -/
theorem cashOut_ok {st : GameState} {u : String} {st' : GameState}
    {co : CashoutDetails} (h : cashOut st u = Except.ok (st', co)) :
    u ≠ "" ∧ st.isGameRunning = true ∧ st.roundPhase = Phase.running ∧
    u ∉ st.cashedOut ∧
    ∃ bet w, lookupKey st.activeBets u = some bet ∧
      lookupKey st.wallets u = some w ∧
      co = { userId := u, usdAmount := bet.usdAmount * st.currentMultiplier,
             cryptoAmount := bet.cryptoAmount * st.currentMultiplier,
             currency := bet.currency, multiplier := st.currentMultiplier } ∧
      st' = { st with
        wallets := insertKey st.wallets u
          (w.set bet.currency (w.get bet.currency + bet.cryptoAmount * st.currentMultiplier))
        cashedOut := st.cashedOut ++ [u]
        currentRound := st.currentRound.map fun r =>
          { r with cashouts := r.cashouts ++ [co] } } := by
  unfold cashOut at h
  split at h
  · cases h
  · split at h
    · cases h
    · split at h
      · cases h
      · rename_i hu hrun hph
        rw [not_ne_iff] at hph
        rw [Bool.not_eq_false] at hrun
        split at h
        · cases h
        · rename_i bet hbet
          split at h
          · cases h
          · rename_i hmem
            split at h
            · cases h
            · rename_i w hw
              simp only at h
              split at h
              · cases h
              · rename_i w' hub
                cases h
                refine ⟨hu, hrun, hph, hmem, bet, w, hbet, hw, rfl, ?_⟩
                rw [updateBalance_ok hub]

/-- The multiplier after a tick, regardless of whether the round crashed. -/
theorem tick_currentMultiplier (st : GameState) (now : ℚ) :
    (tick st now).currentMultiplier
      = Config.initialMultiplier + (now - st.startTime) * Config.growthFactor := by
  simp only [tick]
  split
  · rfl
  · split
    · rfl
    · rfl

/-- A tick never changes the captured start instant. -/
theorem tick_startTime (st : GameState) (now : ℚ) :
    (tick st now).startTime = st.startTime := by
  simp only [tick]
  split
  · rfl
  · split
    · rfl
    · rfl

/-! ### The concrete execution evaluates as stated -/

theorem startBettingPhase_demo : startBettingPhase demoBase = demoBetting := rfl

theorem demoCrashPoint_eval : calculateCrashPoint "0000000a" 100 = some 11 := by
  rw [@calculateCrashPoint_eq "0000000a" 100 10 (by decide) (by decide)]
  norm_num

theorem placeBet_demo1 :
    placeBet demoBetting "u" 10 Currency.BTC 2 = Except.ok demoBet1 := by
  have hu0 : ("u" : String) ≠ "" := by decide
  norm_num [placeBet, demoBetting, demoBase, demoBet1, demoBetU, lookupKey, insertKey,
    updateBalance, Wallet.get, Wallet.set, supportedCurrencies, hu0]

theorem placeBet_demo2 :
    placeBet demoBet1 "v" 10 Currency.BTC 2 = Except.ok demoBet2 := by
  have hv0 : ("v" : String) ≠ "" := by decide
  have huv : ("u" : String) ≠ "v" := by decide
  norm_num [placeBet, demoBetting, demoBase, demoBet1, demoBet2, demoBetU, demoBetV,
    lookupKey, insertKey, updateBalance, Wallet.get, Wallet.set, supportedCurrencies,
    hv0, huv]

theorem startRound_demo : startRound demoBet2 demoSha "seed" 0 = some demoRunning0 := by
  have h : generateCrashPoint demoSha "seed" (demoBet2.roundNumber + 1) Config.maxCrashValue
      = (some 11, "seed", "0000000a") := by
    show (calculateCrashPoint (generateHash demoSha "seed" (demoBet2.roundNumber + 1))
        Config.maxCrashValue, "seed",
        generateHash demoSha "seed" (demoBet2.roundNumber + 1))
      = (some 11, "seed", "0000000a")
    rw [show generateHash demoSha "seed" (demoBet2.roundNumber + 1) = "0000000a" from rfl,
      show Config.maxCrashValue = 100 from rfl, demoCrashPoint_eval]
  simp only [startRound, h]
  rfl

theorem tick_demo : tick demoRunning0 20000 = demoRunning := by
  norm_num [tick, crashGame, demoRunning0, demoRunning, demoRound1,
    Config.initialMultiplier, Config.growthFactor]

theorem cashOut_demoU : cashOut demoRunning "u" = Except.ok (demoCash1, demoCoU) := by
  have hu0 : ("u" : String) ≠ "" := by decide
  norm_num [cashOut, demoRunning, demoRunning0, demoBet2, demoBet1, demoBetting, demoBase,
    demoRound1, demoBetU, demoBetV, demoCoU, demoCash1, lookupKey, insertKey,
    updateBalance, Wallet.get, Wallet.set, hu0]

theorem cashOut_demoV : cashOut demoCash1 "v" = Except.ok (demoCash2, demoCoV) := by
  have hv0 : ("v" : String) ≠ "" := by decide
  have huv : ("u" : String) ≠ "v" := by decide
  have hvu : ("v" : String) ≠ "u" := by decide
  norm_num [cashOut, demoCash1, demoRunning, demoRunning0, demoBet2, demoBet1, demoBetting,
    demoBase, demoRound1, demoBetU, demoBetV, demoCoU, demoCoV, demoCash2, lookupKey,
    insertKey, updateBalance, Wallet.get, Wallet.set, hv0, huv, hvu]

theorem pauseGame_demo : pauseGame demoRunning = demoPaused := rfl

theorem resumeGame_demo : resumeGame demoPaused 30000 = demoResumed := by
  norm_num [resumeGame, demoPaused, demoResumed, demoRunning, demoRunning0, demoRound1]

/-! ## Claim theorems on the round engine -/

/-- C2 counterexample.  A wager is accepted (`placeBet` succeeds) during the
betting phase while the crash point and seed of the upcoming round do not
exist yet: `currentRound` is still `none`, and the seed/crash point are
generated only by `startRound`, which runs after the betting countdown
expires.  So the claim "the crash point and seed are generated before any
wager for that round is accepted" is false on this concrete run. -/
theorem C2_counterexample :
    startBettingPhase demoBase = demoBetting ∧
    demoBetting.currentRound = none ∧
    placeBet demoBetting "u" 10 Currency.BTC 2 = Except.ok demoBet1 ∧
    demoBet1.currentRound = none ∧
    startRound demoBet2 demoSha "seed" 0 = some demoRunning0 ∧
    demoRunning0.currentRound = some demoRound1 :=
  ⟨startBettingPhase_demo, rfl, placeBet_demo1, rfl, startRound_demo, rfl⟩

/-- C2 (amended).  The crash point and seed are generated exactly once per
round — at running-phase entry (`startRound`), which is after the betting
phase in which wagers are accepted — and once the round record exists its
crash point, seed and hash never change under any engine operation
(`placeBet`, `cashOut`, `tick`, `pauseGame`, `resumeGame`) for the lifetime
of the record. -/
theorem C2_generation_once_immutable (st : GameState) (r : GameRound)
    (h : st.currentRound = some r) :
    (∀ u usd amt c st', placeBet st u usd c amt = Except.ok st' →
      ∃ r', st'.currentRound = some r' ∧ r'.crashPoint = r.crashPoint ∧
        r'.seed = r.seed ∧ r'.hash = r.hash) ∧
    (∀ u st' co, cashOut st u = Except.ok (st', co) →
      ∃ r', st'.currentRound = some r' ∧ r'.crashPoint = r.crashPoint ∧
        r'.seed = r.seed ∧ r'.hash = r.hash) ∧
    (∀ now, ∃ r', (tick st now).currentRound = some r' ∧
      r'.crashPoint = r.crashPoint ∧ r'.seed = r.seed ∧ r'.hash = r.hash) ∧
    (pauseGame st).currentRound = some r ∧
    (∀ now, (resumeGame st now).currentRound = some r) ∧
    (∀ sha seed now st', startRound st sha seed now = some st' →
      ∃ cp, calculateCrashPoint (generateHash sha seed (st.roundNumber + 1))
          Config.maxCrashValue = some cp ∧
        st'.currentRound = some
          { roundNumber := st.roundNumber + 1, crashPoint := cp, seed := seed
            hash := generateHash sha seed (st.roundNumber + 1)
            status := RoundStatus.active, bets := [], cashouts := [] }) := by
  refine ⟨?_, ?_, ?_, ?_, ?_, ?_⟩
  · intro u usd amt c st' hok
    obtain ⟨-, -, -, -, w, -, -, hst⟩ := placeBet_ok hok
    subst hst
    refine ⟨{ r with bets := r.bets ++
      [{ userId := u, usdAmount := usd, cryptoAmount := amt, currency := c }] },
      ?_, rfl, rfl, rfl⟩
    simp [h]
  · intro u st' co hok
    obtain ⟨-, -, -, -, bet, w, -, -, -, hst⟩ := cashOut_ok hok
    subst hst
    refine ⟨{ r with cashouts := r.cashouts ++ [co] }, ?_, rfl, rfl, rfl⟩
    simp [h]
  · intro now
    simp only [tick, h]
    split
    · exact ⟨{ r with status := RoundStatus.completed }, by simp [crashGame, h], rfl, rfl, rfl⟩
    · exact ⟨r, by simp [h], rfl, rfl, rfl⟩
  · simp only [pauseGame]
    split
    · exact h
    · exact h
  · intro now
    simp only [resumeGame, h]
    split
    · split
      · rfl
      · rfl
    · exact h
  · intro sha seed now st' hst
    simp only [startRound, generateCrashPoint] at hst
    split at hst
    · cases hst
    · rename_i cp seed' hsh heq
      rw [Prod.mk.injEq, Prod.mk.injEq] at heq
      obtain ⟨hcp, hseed, hhash⟩ := heq
      cases hst
      exact ⟨cp, hcp, by rw [← hseed, ← hhash]⟩

/-- C2 witness: in the concrete run, the round record (crash point 11, seed
`"seed"`) survives pause and resume unchanged. -/
theorem C2_generation_once_immutable_witness :
    (pauseGame demoRunning0).currentRound = some demoRound1 ∧
    ∀ now, (resumeGame demoRunning0 now).currentRound = some demoRound1 := by
  have h := C2_generation_once_immutable demoRunning0 demoRound1 rfl
  exact ⟨h.2.2.2.1, h.2.2.2.2.1⟩

/-- C3 counterexample.  Pausing at 20000 ms elapsed freezes the multiplier
at 2; resuming at absolute time 30000 re-captures the start instant, so the
very next tick reads multiplier 1 (the frozen elapsed time is lost), and
20000 ms after the resume the multiplier is back to 2 — not the 3 that
continuing from the frozen elapsed time would give.  So "resume continues
the multiplier from the frozen elapsed time" is false on this run. -/
theorem C3_counterexample :
    pauseGame demoRunning = demoPaused ∧
    demoPaused.currentMultiplier = 2 ∧
    resumeGame demoPaused 30000 = demoResumed ∧
    (tick demoResumed 30000).currentMultiplier = 1 ∧
    (tick demoResumed 50000).currentMultiplier = 2 ∧
    (tick demoResumed 50000).currentMultiplier ≠ 3 := by
  refine ⟨pauseGame_demo, rfl, resumeGame_demo, ?_, ?_, ?_⟩ <;>
    rw [tick_currentMultiplier] <;>
      norm_num [demoResumed, demoPaused, demoRunning, demoRunning0,
        Config.initialMultiplier, Config.growthFactor]

/-- C3 (amended).  Pausing a running round freezes the multiplier value and
keeps the same round record (same crash point); `resume` re-enters `running`
with the same crash point but re-captures the start instant at the resume
time `now`, so the multiplier clock restarts from zero elapsed time: a tick
at `now'` computes `initialMultiplier + (now' - now) * growthFactor`
(the elapsed time frozen at pause is not preserved). -/
theorem C3_pause_resume (st : GameState) (now now' : ℚ) (r : GameRound)
    (hph : st.roundPhase = Phase.running) (hrun : st.isGameRunning = true)
    (hr : st.currentRound = some r) (hcp : r.crashPoint ≠ 0) :
    (pauseGame st).currentMultiplier = st.currentMultiplier ∧
    (pauseGame st).currentRound = some r ∧
    (pauseGame st).roundPhase = Phase.paused ∧
    (resumeGame (pauseGame st) now).roundPhase = Phase.running ∧
    (resumeGame (pauseGame st) now).isGameRunning = true ∧
    (resumeGame (pauseGame st) now).currentRound = some r ∧
    (resumeGame (pauseGame st) now).startTime = now ∧
    (tick (resumeGame (pauseGame st) now) now').currentMultiplier
      = Config.initialMultiplier + (now' - now) * Config.growthFactor := by
  have hp : pauseGame st = { st with isGameRunning := false, roundPhase := Phase.paused } := by
    simp [pauseGame, hph, hrun]
  have hres : resumeGame (pauseGame st) now
      = { st with isGameRunning := true, roundPhase := Phase.running, startTime := now } := by
    rw [hp]
    simp [resumeGame, hr, hcp]
  refine ⟨by rw [hp], by rw [hp]; exact hr, by rw [hp], by rw [hres], by rw [hres],
    by rw [hres]; exact hr, by rw [hres], ?_⟩
  rw [tick_currentMultiplier, hres]

/-- C3 witness: the amended pause/resume behavior on the concrete run
(pause at multiplier 2, resume at 30000, tick at 50000). -/
theorem C3_pause_resume_witness :
    (pauseGame demoRunning).currentMultiplier = demoRunning.currentMultiplier ∧
    (pauseGame demoRunning).currentRound = some demoRound1 ∧
    (pauseGame demoRunning).roundPhase = Phase.paused ∧
    (resumeGame (pauseGame demoRunning) 30000).roundPhase = Phase.running ∧
    (resumeGame (pauseGame demoRunning) 30000).isGameRunning = true ∧
    (resumeGame (pauseGame demoRunning) 30000).currentRound = some demoRound1 ∧
    (resumeGame (pauseGame demoRunning) 30000).startTime = 30000 ∧
    (tick (resumeGame (pauseGame demoRunning) 30000) 50000).currentMultiplier
      = Config.initialMultiplier + (50000 - 30000) * Config.growthFactor :=
  C3_pause_resume demoRunning 30000 50000 demoRound1 rfl rfl rfl
    (by norm_num [demoRound1])

/-- C5 counterexample.  Two cashout requests processed one after the other
with no multiplier tick in between read exactly the same multiplier (2): the
later request does not read a strictly larger multiplier. -/
theorem C5_counterexample :
    cashOut demoRunning "u" = Except.ok (demoCash1, demoCoU) ∧
    cashOut demoCash1 "v" = Except.ok (demoCash2, demoCoV) ∧
    demoCoV.multiplier = demoCoU.multiplier ∧
    ¬ demoCoU.multiplier < demoCoV.multiplier :=
  ⟨cashOut_demoU, cashOut_demoV, rfl, by norm_num [demoCoU, demoCoV]⟩

/-- C5 (amended).  Each cashout reads the current multiplier at the instant
of processing, and a cashout does not change the multiplier, so a later
cashout processed with no tick in between reads exactly the same multiplier
as the earlier one (greater-or-equal in general, by the monotonicity of the
tick formula — never smaller, but possibly equal). -/
theorem C5_cashout_multiplier (st st1 st2 : GameState) (u1 u2 : String)
    (c1 c2 : CashoutDetails)
    (h1 : cashOut st u1 = Except.ok (st1, c1))
    (h2 : cashOut st1 u2 = Except.ok (st2, c2)) :
    c1.multiplier = st.currentMultiplier ∧
    st1.currentMultiplier = st.currentMultiplier ∧
    c2.multiplier = c1.multiplier := by
  obtain ⟨-, -, -, -, b1, w1, -, -, hco1, hst1⟩ := cashOut_ok h1
  obtain ⟨-, -, -, -, b2, w2, -, -, hco2, hst2⟩ := cashOut_ok h2
  subst hst1
  refine ⟨by simp [hco1], rfl, by simp [hco1, hco2]⟩

/-- C5 witness: the two concrete back-to-back cashouts both read
multiplier 2. -/
theorem C5_cashout_multiplier_witness :
    demoCoU.multiplier = demoRunning.currentMultiplier ∧
    demoCash1.currentMultiplier = demoRunning.currentMultiplier ∧
    demoCoV.multiplier = demoCoU.multiplier :=
  C5_cashout_multiplier demoRunning demoCash1 demoCash2 "u" "v" demoCoU demoCoV
    cashOut_demoU cashOut_demoV

/-- C6.  On each tick the multiplier equals
`initialMultiplier + elapsedMs * growthFactor` (with
`initialMultiplier = 1.00`); across consecutive ticks at non-decreasing
times within one running phase the multiplier is monotonically
non-decreasing; and `startRound` (the next round's running entry) resets the
multiplier to exactly 1. -/
theorem C6_tick_formula (st : GameState) (now1 now2 : ℚ) (h12 : now1 ≤ now2) :
    (tick st now1).currentMultiplier
      = Config.initialMultiplier + (now1 - st.startTime) * Config.growthFactor ∧
    (tick (tick st now1) now2).currentMultiplier
      = Config.initialMultiplier + (now2 - st.startTime) * Config.growthFactor ∧
    (tick st now1).currentMultiplier ≤ (tick (tick st now1) now2).currentMultiplier ∧
    (∀ sha seed now st', startRound st sha seed now = some st' →
      st'.currentMultiplier = 1) := by
  have ha := tick_currentMultiplier st now1
  have hb := tick_currentMultiplier (tick st now1) now2
  rw [tick_startTime] at hb
  refine ⟨ha, hb, ?_, ?_⟩
  · rw [ha, hb]
    have hg : (0:ℚ) ≤ Config.growthFactor := by norm_num [Config.growthFactor]
    have hd : now1 - st.startTime ≤ now2 - st.startTime := by linarith
    exact add_le_add_left (mul_le_mul_of_nonneg_right hd hg) _
  · intro sha seed now st' hst
    simp only [startRound, generateCrashPoint] at hst
    split at hst
    · cases hst
    · cases hst
      rfl

/-- C6 witness: ticks at times 0 and 1 from the initial demo state. -/
theorem C6_tick_formula_witness :
    (0:ℚ) ≤ 1 ∧
    ((tick demoBase 0).currentMultiplier
      = Config.initialMultiplier + (0 - demoBase.startTime) * Config.growthFactor ∧
    (tick (tick demoBase 0) 1).currentMultiplier
      = Config.initialMultiplier + (1 - demoBase.startTime) * Config.growthFactor ∧
    (tick demoBase 0).currentMultiplier ≤ (tick (tick demoBase 0) 1).currentMultiplier ∧
    (∀ sha seed now st', startRound demoBase sha seed now = some st' →
      st'.currentMultiplier = 1)) :=
  ⟨by norm_num, C6_tick_formula demoBase 0 1 (by norm_num)⟩

/-- C7.  If the user's balance in the chosen currency is below the converted
wager amount, the wallet debit fails (`updateBalance` with the negated
amount returns the insufficient-balance error) and `placeBet` returns the
insufficient-balance error having performed no mutation: the error return
means the caller's state — in which the user has no wager in the round
ledger (`hnb`) and the wallet still holds `w` (`hw`) — is left untouched, so
neither the ledger nor the wallet records the bet. -/
theorem C7_insufficient_funds (st : GameState) (u : String) (usd amt : ℚ)
    (c : Currency) (w : Wallet)
    (hu : u ≠ "") (husd : 0 < usd)
    (hph : st.roundPhase = Phase.betting)
    (hnb : lookupKey st.activeBets u = none)
    (hw : lookupKey st.wallets u = some w)
    (hins : w.get c < amt) :
    updateBalance w c (-amt) = Except.error (GameError.insufficientBalance c) ∧
    placeBet st u usd c amt = Except.error (GameError.insufficientBalance c) := by
  constructor
  · unfold updateBalance
    by_cases h0 : w.get c = 0 ∧ -amt < 0
    · simp [h0]
    · have hlt : w.get c + -amt < 0 := by linarith
      simp [h0, hlt]
  · unfold placeBet
    simp [hu, not_le.2 husd, hph, hnb, hw, hins, mem_supportedCurrencies]

/-- C7 witness: user `"u"` with 10 BTC tries to stake 100 BTC during
betting. -/
theorem C7_insufficient_funds_witness :
    updateBalance { btc := 10, eth := 0 } Currency.BTC (-100)
      = Except.error (GameError.insufficientBalance Currency.BTC) ∧
    placeBet demoBetting "u" 10 Currency.BTC 100
      = Except.error (GameError.insufficientBalance Currency.BTC) :=
  C7_insufficient_funds demoBetting "u" 10 100 Currency.BTC { btc := 10, eth := 0 }
    (by decide) (by norm_num) rfl rfl rfl (by norm_num [Wallet.get])

/-- C8.  At most one wager and one cashout settle per user and round: after
a successful `placeBet`, a second `placeBet` by the same user in the same
betting phase returns the duplicate-bet error (and, being an error, leaves
the wallet untouched); after a successful `cashOut`, a second `cashOut` by
the same user in the same round returns the already-cashed-out error and
issues no second credit. -/
theorem C8_no_duplicate (stA stA' stB stB' : GameState) (u : String)
    (usd amt usd' amt' : ℚ) (c c' : Currency) (co : CashoutDetails)
    (husd' : 0 < usd')
    (h1 : placeBet stA u usd c amt = Except.ok stA')
    (h2 : cashOut stB u = Except.ok (stB', co)) :
    placeBet stA' u usd' c' amt' = Except.error GameError.alreadyActiveBet ∧
    cashOut stB' u = Except.error GameError.alreadyCashedOut := by
  obtain ⟨hu, -, hph, -, w, -, -, hstA⟩ := placeBet_ok h1
  obtain ⟨hu2, hrun, hph2, -, bet, w2, hbet, -, -, hstB⟩ := cashOut_ok h2
  constructor
  · subst hstA
    unfold placeBet
    simp [hu, not_le.2 husd', hph, mem_supportedCurrencies, lookupKey_insertKey_self]
  · subst hstB
    unfold cashOut
    simp [hu2, hrun, hph2, hbet]

/-- C8 witness: user `"u"` bets again after betting, and cashes out again
after cashing out, in the concrete run. -/
theorem C8_no_duplicate_witness :
    placeBet demoBet1 "u" 10 Currency.BTC 2 = Except.error GameError.alreadyActiveBet ∧
    cashOut demoCash1 "u" = Except.error GameError.alreadyCashedOut :=
  C8_no_duplicate demoBetting demoBet1 demoRunning demoCash1 "u" 10 2 10 2
    Currency.BTC Currency.BTC demoCoU (by norm_num) placeBet_demo1 cashOut_demoU

/-- C9 counterexample.  A cashout attempted during the betting phase (when
the game-running flag is down, as it always is outside `running` in a normal
round cycle) is rejected with the no-active-round error, not with the
dedicated phase-gate error — so "fails with a phase-mismatch error" is not
literally what the code returns there (it does fail, with no mutation). -/
theorem C9_counterexample :
    demoBetting.roundPhase ≠ Phase.running ∧
    cashOut demoBetting "u" = Except.error GameError.noActiveRound ∧
    GameError.noActiveRound ≠ GameError.cashoutNotAllowed := by
  refine ⟨by decide, ?_, by decide⟩
  have hu0 : ("u" : String) ≠ "" := by decide
  simp [cashOut, demoBetting, demoBase, hu0]

/-- C9 (amended).  Wagers and cashouts are phase-gated and an out-of-phase
attempt mutates nothing (the error return leaves the state untouched):
`placeBet` outside `betting` fails with the betting-closed (phase-mismatch)
error; `cashOut` outside `running` fails with the no-active-round error when
the game-running flag is down (the reachable case, e.g. during betting or
waiting) and with the cashout phase-gate error when the flag is up. -/
theorem C9_phase_gated (stA stB : GameState) (u : String) (usd amt : ℚ)
    (c : Currency)
    (hu : u ≠ "") (husd : 0 < usd)
    (hA : stA.roundPhase ≠ Phase.betting)
    (hB : stB.roundPhase ≠ Phase.running) :
    placeBet stA u usd c amt = Except.error GameError.bettingClosed ∧
    (stB.isGameRunning = false →
      cashOut stB u = Except.error GameError.noActiveRound) ∧
    (stB.isGameRunning = true →
      cashOut stB u = Except.error GameError.cashoutNotAllowed) := by
  refine ⟨?_, ?_, ?_⟩
  · unfold placeBet
    simp [hu, not_le.2 husd, mem_supportedCurrencies, hA]
  · intro hrun
    unfold cashOut
    simp [hu, hrun]
  · intro hrun
    unfold cashOut
    simp [hu, hrun, hB]

/-- C9 witness: a bet attempted while running and a cashout attempted while
betting. -/
theorem C9_phase_gated_witness :
    placeBet demoRunning "u" 10 Currency.BTC 2 = Except.error GameError.bettingClosed ∧
    (demoBetting.isGameRunning = false →
      cashOut demoBetting "u" = Except.error GameError.noActiveRound) ∧
    (demoBetting.isGameRunning = true →
      cashOut demoBetting "u" = Except.error GameError.cashoutNotAllowed) :=
  C9_phase_gated demoRunning demoBetting "u" 10 2 Currency.BTC (by decide)
    (by norm_num) (by decide) (by decide)

end CryptoCrash
